import Mathlib

/-!
Verification of the UEFI variable accessor
(`SetupDataPkg/Tools/SettingSupport/UefiVariablesSupportLinuxLib.py`).

The development shallowly embeds the three operations of the Python class
`UefiVariable` — `GetUefiVar`, `GetUefiAllVarNames`, `SetUefiVar` — together
with the name/GUID codec they share.  Python strings are modelled as
`List Char`, byte strings as `List Nat`, and the efivarfs store as a partial
map from paths to file contents.  Interpreter-dependent quantities
(`sys.getsizeof`) are kept as explicit parameters.
-/

namespace UefiVariable

/-- Python strings, modelled as their list of characters. -/
abbrev PyStr := List Char

/-- Byte strings (each element intended `< 256`). -/
abbrev Bytes := List Nat

/-- Sentinel error code for a missing variable (source line 20). -/
def ERROR_ENVVAR_NOT_FOUND : Nat := 0xcb

/-! ## Python `str.split` / `str.join` on a single-character separator -/

/-- Helper for `pySplit`: prepend a character onto the first segment. -/
def consHead (c : Char) : List PyStr → List PyStr
  | [] => [[c]]
  | s :: ss => (c :: s) :: ss

/-- Python `s.split(sep)` for a one-character separator: every occurrence of
the separator ends a segment and empty segments are kept
(`"".split("-") == [""]`, `"-".split("-") == ["", ""]`). -/
def pySplit (sep : Char) : PyStr → List PyStr
  | [] => [[]]
  | c :: rest => if c = sep then [] :: pySplit sep rest else consHead c (pySplit sep rest)

/-- Python `sep.join(segs)` for a one-character separator. -/
def pyJoin (sep : Char) : List PyStr → PyStr
  | [] => []
  | [s] => s
  | s :: t :: rest => s ++ sep :: pyJoin sep (t :: rest)

theorem consHead_ne_nil (c : Char) (xs : List PyStr) : consHead c xs ≠ [] := by
  cases xs <;> simp [consHead]

theorem pySplit_ne_nil (sep : Char) (s : PyStr) : pySplit sep s ≠ [] := by
  induction s with
  | nil => simp [pySplit]
  | cons c rest ih =>
    by_cases h : c = sep
    · simp [pySplit, h]
    · simpa [pySplit, h] using consHead_ne_nil c (pySplit sep rest)

theorem consHead_append (c : Char) (xs ys : List PyStr) (h : xs ≠ []) :
    consHead c (xs ++ ys) = consHead c xs ++ ys := by
  cases xs with
  | nil => exact absurd rfl h
  | cons s ss => simp [consHead]

/-- Splitting distributes over an explicit separator: the text before it and
the text after it are split independently. -/
theorem pySplit_append (sep : Char) (a b : PyStr) :
    pySplit sep (a ++ sep :: b) = pySplit sep a ++ pySplit sep b := by
  induction a with
  | nil => simp [pySplit]
  | cons c a ih =>
    by_cases h : c = sep
    · simp [pySplit, h, ih]
    · simp only [List.cons_append, pySplit, if_neg h, List.append_eq]
      rw [ih]
      exact consHead_append c _ _ (pySplit_ne_nil sep a)

/-- A separator-free string splits into the single segment it is. -/
theorem pySplit_of_not_mem (sep : Char) (s : PyStr) (h : sep ∉ s) :
    pySplit sep s = [s] := by
  induction s with
  | nil => rfl
  | cons c rest ih =>
    have hc : ¬ c = sep := fun hcs => h (hcs ▸ List.mem_cons_self c rest)
    have hrest : sep ∉ rest := fun hm => h (List.mem_cons_of_mem c hm)
    simp [pySplit, hc, ih hrest, consHead]

theorem pyJoin_consHead (sep c : Char) (xs : List PyStr) (h : xs ≠ []) :
    pyJoin sep (consHead c xs) = c :: pyJoin sep xs := by
  cases xs with
  | nil => exact absurd rfl h
  | cons s ss => cases ss <;> simp [consHead, pyJoin]

/-- Joining what splitting produced reconstructs the original string. -/
theorem pyJoin_pySplit (sep : Char) (s : PyStr) : pyJoin sep (pySplit sep s) = s := by
  induction s with
  | nil => rfl
  | cons c rest ih =>
    by_cases h : c = sep
    · obtain ⟨y, ys, hys⟩ := List.exists_cons_of_ne_nil (pySplit_ne_nil sep rest)
      subst h
      simp [pySplit, hys, pyJoin, hys ▸ ih]
    · simp [pySplit, h, pyJoin_consHead sep c _ (pySplit_ne_nil sep rest), ih]

/-! ## Hexadecimal rendering and parsing (for `uuid.UUID`) -/

/-- Lowercase hexadecimal digit for a value `< 16`. -/
def hexDigitChar (n : Nat) : Char :=
  if n < 10 then Char.ofNat (48 + n) else Char.ofNat (87 + n)

/-- Value of a hexadecimal digit character, `none` for a non-digit; both
cases are accepted, matching Python `int(s, 16)`. -/
def hexVal (c : Char) : Option Nat :=
  if 48 ≤ c.toNat ∧ c.toNat ≤ 57 then some (c.toNat - 48)
  else if 97 ≤ c.toNat ∧ c.toNat ≤ 102 then some (c.toNat - 87)
  else if 65 ≤ c.toNat ∧ c.toNat ≤ 70 then some (c.toNat - 55)
  else none

/-- Fixed-width big-endian lowercase hexadecimal rendering of `n % 16 ^ w`. -/
def natToHex : Nat → Nat → PyStr
  | 0, _ => []
  | w + 1, n => natToHex w (n / 16) ++ [hexDigitChar (n % 16)]

/-- Left fold of hexadecimal digits onto an accumulator; `none` on the first
non-digit character. -/
def parseHexAcc (acc : Nat) : PyStr → Option Nat
  | [] => some acc
  | c :: rest =>
    match hexVal c with
    | none => none
    | some d => parseHexAcc (16 * acc + d) rest

theorem hexVal_hexDigitChar (n : Nat) (h : n < 16) :
    hexVal (hexDigitChar n) = some n := by
  interval_cases n <;> decide

theorem hexDigitChar_ne_dash (n : Nat) (h : n < 16) : hexDigitChar n ≠ '-' := by
  interval_cases n <;> decide

theorem length_natToHex (w n : Nat) : (natToHex w n).length = w := by
  induction w generalizing n with
  | zero => rfl
  | succ w ih => simp [natToHex, ih]

theorem dash_not_mem_natToHex (w n : Nat) : '-' ∉ natToHex w n := by
  induction w generalizing n with
  | zero => simp [natToHex]
  | succ w ih =>
    simp only [natToHex, List.mem_append, List.mem_singleton]
    rintro (hm | hm)
    · exact ih (n / 16) hm
    · exact hexDigitChar_ne_dash (n % 16) (Nat.mod_lt n (by omega)) hm.symm

theorem parseHexAcc_append (acc : Nat) (a b : PyStr) :
    parseHexAcc acc (a ++ b) =
      match parseHexAcc acc a with
      | none => none
      | some m => parseHexAcc m b := by
  induction a generalizing acc with
  | nil => rfl
  | cons c a ih =>
    simp only [List.cons_append, parseHexAcc]
    cases hexVal c with
    | none => rfl
    | some d => exact ih (16 * acc + d)

theorem parseHexAcc_natToHex (w : Nat) :
    ∀ acc n, n < 16 ^ w → parseHexAcc acc (natToHex w n) = some (acc * 16 ^ w + n) := by
  induction w with
  | zero =>
    intro acc n hn
    have : n = 0 := by omega
    simp [natToHex, parseHexAcc, this]
  | succ w ih =>
    intro acc n hn
    have hdiv : n / 16 < 16 ^ w := by
      have : 16 ^ (w + 1) = 16 ^ w * 16 := pow_succ 16 w
      omega
    rw [natToHex, parseHexAcc_append, ih acc (n / 16) hdiv]
    simp only [parseHexAcc, hexVal_hexDigitChar (n % 16) (Nat.mod_lt n (by omega))]
    have hp : 16 ^ (w + 1) = 16 ^ w * 16 := pow_succ 16 w
    have hx : 16 * (acc * 16 ^ w + n / 16) + n % 16 = acc * 16 ^ (w + 1) + n := by
      rw [hp]
      have := Nat.div_add_mod n 16
      ring_nf
      omega
    rw [hx]

/-! ## GUID canonical form and `uuid.UUID` parsing -/

/-- Canonical lowercase hyphenated `8-4-4-4-12` rendering of a 128-bit GUID
value, as produced by `str(uuid.UUID(...))`. -/
def uuidCanonical (g : Nat) : PyStr :=
  natToHex 8 (g / 16 ^ 24) ++ '-' ::
    (natToHex 4 (g / 16 ^ 20 % 16 ^ 4) ++ '-' ::
      (natToHex 4 (g / 16 ^ 16 % 16 ^ 4) ++ '-' ::
        (natToHex 4 (g / 16 ^ 12 % 16 ^ 4) ++ '-' :: natToHex 12 (g % 16 ^ 12))))

/-- Model of `uuid.UUID(s)` (source line 100): remove the hyphens, require
exactly 32 hexadecimal digits, and read them as a big-endian 128-bit value.
(The `urn:`/`uuid:` prefix and brace stripping of the Python constructor and
the underscore/sign quirks of `int(s, 16)` are omitted; no entry relevant to
the claims uses them.)  The source then converts the value to its fixed
16-byte `bytes_le` layout; the value itself is what the claims compare. -/
def uuidParse (s : PyStr) : Option Nat :=
  if (s.filter (· != '-')).length = 32 then parseHexAcc 0 (s.filter (· != '-')) else none

theorem filter_dash_natToHex (w n : Nat) :
    (natToHex w n).filter (· != '-') = natToHex w n := by
  refine List.filter_eq_self.mpr (fun a ha => ?_)
  have hne : a ≠ '-' := fun hEq => dash_not_mem_natToHex w n (hEq ▸ ha)
  simpa using hne

theorem pySplit_uuidCanonical (g : Nat) :
    pySplit '-' (uuidCanonical g) =
      [natToHex 8 (g / 16 ^ 24), natToHex 4 (g / 16 ^ 20 % 16 ^ 4),
       natToHex 4 (g / 16 ^ 16 % 16 ^ 4), natToHex 4 (g / 16 ^ 12 % 16 ^ 4),
       natToHex 12 (g % 16 ^ 12)] := by
  unfold uuidCanonical
  rw [pySplit_append, pySplit_append, pySplit_append, pySplit_append,
    pySplit_of_not_mem '-' _ (dash_not_mem_natToHex 8 _),
    pySplit_of_not_mem '-' _ (dash_not_mem_natToHex 4 _),
    pySplit_of_not_mem '-' _ (dash_not_mem_natToHex 4 _),
    pySplit_of_not_mem '-' _ (dash_not_mem_natToHex 4 _),
    pySplit_of_not_mem '-' _ (dash_not_mem_natToHex 12 _)]
  rfl

theorem parseHexAcc_append_some (acc m : Nat) (a b : PyStr)
    (h : parseHexAcc acc a = some m) : parseHexAcc acc (a ++ b) = parseHexAcc m b := by
  rw [parseHexAcc_append, h]

/-- Parsing the canonical rendering of a 128-bit value recovers the value. -/
theorem uuidParse_uuidCanonical (g : Nat) (hg : g < 16 ^ 32) :
    uuidParse (uuidCanonical g) = some g := by
  have h1 : g / 16 ^ 24 < 16 ^ 8 := Nat.div_lt_of_lt_mul (by
    have h : (16 : Nat) ^ 24 * 16 ^ 8 = 16 ^ 32 := by norm_num
    omega)
  have h2 : g / 16 ^ 20 % 16 ^ 4 < 16 ^ 4 := Nat.mod_lt _ (by norm_num)
  have h3 : g / 16 ^ 16 % 16 ^ 4 < 16 ^ 4 := Nat.mod_lt _ (by norm_num)
  have h4 : g / 16 ^ 12 % 16 ^ 4 < 16 ^ 4 := Nat.mod_lt _ (by norm_num)
  have h5 : g % 16 ^ 12 < 16 ^ 12 := Nat.mod_lt _ (by norm_num)
  have hfil : (uuidCanonical g).filter (· != '-') =
      natToHex 8 (g / 16 ^ 24) ++ (natToHex 4 (g / 16 ^ 20 % 16 ^ 4) ++
        (natToHex 4 (g / 16 ^ 16 % 16 ^ 4) ++ (natToHex 4 (g / 16 ^ 12 % 16 ^ 4) ++
          natToHex 12 (g % 16 ^ 12)))) := by
    unfold uuidCanonical
    simp [List.filter_append, List.filter_cons, filter_dash_natToHex]
  have hlen : ((uuidCanonical g).filter (· != '-')).length = 32 := by
    rw [hfil]
    simp [length_natToHex]
  rw [uuidParse, if_pos hlen, hfil,
    parseHexAcc_append_some _ _ _ _ (parseHexAcc_natToHex 8 0 _ h1),
    parseHexAcc_append_some _ _ _ _ (parseHexAcc_natToHex 4 _ _ h2),
    parseHexAcc_append_some _ _ _ _ (parseHexAcc_natToHex 4 _ _ h3),
    parseHexAcc_append_some _ _ _ _ (parseHexAcc_natToHex 4 _ _ h4),
    parseHexAcc_natToHex 12 _ _ h5]
  congr 1
  have e4 : (16 : Nat) ^ 4 = 65536 := by norm_num
  have e8 : (16 : Nat) ^ 8 = 4294967296 := by norm_num
  have e12 : (16 : Nat) ^ 12 = 281474976710656 := by norm_num
  have e16 : (16 : Nat) ^ 16 = 18446744073709551616 := by norm_num
  have e20 : (16 : Nat) ^ 20 = 1208925819614629174706176 := by norm_num
  have e24 : (16 : Nat) ^ 24 = 79228162514264337593543950336 := by norm_num
  have e32 : (16 : Nat) ^ 32 = 340282366920938463463374607431768211456 := by norm_num
  rw [e4, e8, e12, e16, e20, e24] at *
  rw [e32] at hg
  omega

/-! ## The name/GUID entry codec -/

/-- Decoding of one efivarfs entry name, source lines 96–105: split on `'-'`,
parse the join of the last five segments as a GUID (Python slice
`split_string[-5:]`, which is the whole list when fewer than five segments
exist), and rejoin the remaining prefix as the variable name
(`split_string[:-5]`, empty when fewer than six segments exist).  `none`
models the `ValueError` from `uuid.UUID` that line 102 turns into
`raise Exception(...)`. -/
def decodeEntry (v : PyStr) : Option (PyStr × Nat) :=
  let segs := pySplit '-' v
  match uuidParse (pyJoin '-' (segs.drop (segs.length - 5))) with
  | none => none
  | some g => some (pyJoin '-' (segs.take (segs.length - 5)), g)

/-- Encoding of a (name, guid) identity as a filesystem entry name, as
composed by `GetUefiVar` (line 53) and `SetUefiVar` (line 132):
`name + '-' + str(guid)`. -/
def encodeEntry (name : PyStr) (g : Nat) : PyStr := name ++ '-' :: uuidCanonical g

/-- Decoding inverts encoding for every name (hyphens allowed) and every
128-bit GUID value. -/
theorem decodeEntry_encodeEntry (name : PyStr) (g : Nat) (hg : g < 16 ^ 32) :
    decodeEntry (encodeEntry name g) = some (name, g) := by
  have hsegs : pySplit '-' (encodeEntry name g) =
      pySplit '-' name ++ [natToHex 8 (g / 16 ^ 24), natToHex 4 (g / 16 ^ 20 % 16 ^ 4),
        natToHex 4 (g / 16 ^ 16 % 16 ^ 4), natToHex 4 (g / 16 ^ 12 % 16 ^ 4),
        natToHex 12 (g % 16 ^ 12)] := by
    rw [encodeEntry, pySplit_append, pySplit_uuidCanonical]
  have hjoin5 : pyJoin '-' [natToHex 8 (g / 16 ^ 24), natToHex 4 (g / 16 ^ 20 % 16 ^ 4),
      natToHex 4 (g / 16 ^ 16 % 16 ^ 4), natToHex 4 (g / 16 ^ 12 % 16 ^ 4),
      natToHex 12 (g % 16 ^ 12)] = uuidCanonical g := by
    simp [pyJoin, uuidCanonical]
  simp only [decodeEntry, hsegs]
  rw [List.length_append, List.length_cons, List.length_cons, List.length_cons,
    List.length_cons, List.length_cons, List.length_nil, Nat.add_sub_cancel,
    List.drop_left, List.take_left, hjoin5, uuidParse_uuidCanonical g hg,
    pyJoin_pySplit]

/-! ## The store and the three operations -/

/-- The efivarfs root directory prefix used by all composed paths. -/
def efivarsRoot : PyStr := "/sys/firmware/efi/efivars/".toList

/-- Path composition shared by `GetUefiVar` (line 53, `name + '-%s' % guid`)
and `SetUefiVar` (line 132, `name + '-' + str(guid)`); both produce
`root + name + '-' + str(guid)`.  `guidStr` is the rendering of the caller's
guid argument. -/
def efiVarPath (name guidStr : PyStr) : PyStr := efivarsRoot ++ name ++ '-' :: guidStr

/-- The filesystem state: contents of each path, `none` when absent. -/
abbrev Store := PyStr → Option Bytes

/-- Source lines 49–63: compose the path; if it does not exist return
`(0xcb, None, None)` without touching the file, otherwise read the whole
file and return `(0, contents, None)`. -/
def GetUefiVar (store : Store) (name guidStr : PyStr) : Nat × Option Bytes × Option Bytes :=
  match store (efiVarPath name guidStr) with
  | none => (ERROR_ENVVAR_NOT_FOUND, none, none)
  | some contents => (0, some contents, none)

/-- `struct.pack('=I', n)` on the little-endian platforms this Linux-only
tool runs on: four bytes, least significant first.  (`'='` is native byte
order; a value `≥ 2 ^ 32` would raise `struct.error`, but the claims only
exercise the default attribute value 7.) -/
def packUInt32LE (n : Nat) : Bytes :=
  [n % 256, n / 256 % 256, n / 2 ^ 16 % 256, n / 2 ^ 24 % 256]

/-- Source lines 129–151: with `var = None`, delete the file if it exists
and return 1, else return 0; with a payload, default `attrs` to `0x7` and
write `struct.pack('=I', attrs) + var`, returning 1.  (`var_len` on lines
130/140 is computed but never used.) -/
def SetUefiVar (store : Store) (name guidStr : PyStr) (var : Option Bytes)
    (attrs : Option Nat) : Nat × Store :=
  let path := efiVarPath name guidStr
  match var with
  | none =>
    match store path with
    | some _ => (1, fun p => if p = path then none else store p)
    | none => (0, store)
  | some v =>
    let a := match attrs with | none => 0x7 | some a => a
    (1, fun p => if p = path then some (packUInt32LE a ++ v) else store p)

/-! ## Enumeration (`GetUefiAllVarNames`, source lines 75–123)

The buffer length on lines 88–91 is computed from CPython object sizes:
`sys.getsizeof(int)` is the size of the `int` *type object* (not 4), and
`sys.getsizeof(var.encode('utf-16'))` is the size of a `bytes` object —
header plus byte-order mark plus two bytes per BMP code point — taken over
the whole entry name including its GUID suffix.  Both quantities are
interpreter-dependent, so they are parameters `szIntType` (value of
`sys.getsizeof(int)`) and `szBytes` (value of `sys.getsizeof` on a `bytes`
object as a function of its content length) here. -/

/-- UTF-16 code units of one character (2 for the supplementary planes). -/
def utf16CodeUnits (c : Char) : Nat := if c.toNat < 0x10000 then 1 else 2

/-- Byte length of Python `s.encode('utf-16')`: 2-byte byte-order mark plus
2 bytes per code unit. -/
def utf16ByteLen (s : PyStr) : Nat := 2 + 2 * (s.map utf16CodeUnits).sum

/-- Buffer length computed on lines 88–91:
`sum(sys.getsizeof(int) + sys.getsizeof(var.encode('utf-16')) for var in vars)`. -/
def enumLength (szIntType : Nat) (szBytes : Nat → Nat) (vars : List PyStr) : Nat :=
  (vars.map (fun v => szIntType + szBytes (utf16ByteLen v))).sum

/-- Python exceptions that `GetUefiAllVarNames` can raise. -/
inductive PyError
  /-- `TypeError` from line 112: `efi_var_names[offset] = struct.pack('=I', ...)`
  assigns a 4-byte `bytes` object to a single `c_char` array cell, which
  ctypes rejects ("one character bytes, bytearray or integer expected").
  Lines 116 (`struct.packed`) and its `guid.toString()` operand would raise
  `AttributeError` but are never reached. -/
  | typeError
  /-- Line 102: `raise Exception(f'Could not parse "{var}"')` when
  `uuid.UUID` raises `ValueError` on the entry name. -/
  | exnCouldNotParse (entry : PyStr)
deriving DecidableEq

/-- The fill loop of lines 95–121.  Each iteration first decodes the entry
(lines 97–105, raising the line-102 `Exception` on failure) and then
executes line 112, whose single-cell assignment of a 4-byte value raises
`TypeError`, so no iteration ever completes and the buffer is never
modified. -/
def enumLoop (buf : Bytes) : List PyStr → Except PyError Bytes
  | [] => .ok buf
  | v :: _ =>
    match decodeEntry v with
    | none => .error (.exnCouldNotParse v)
    | some _ => .error .typeError

/-- Source lines 75–123.  `root = none` models an absent store directory;
`root = some vars` models `os.listdir` returning `vars`.  The result is the
`(status, buffer-or-None)` tuple, or the raised exception. -/
def GetUefiAllVarNames (szIntType : Nat) (szBytes : Nat → Nat)
    (root : Option (List PyStr)) : Except PyError (Nat × Option Bytes) :=
  match root with
  | none => .ok (ERROR_ENVVAR_NOT_FOUND, none)
  | some vars =>
    let buf : Bytes := List.replicate (enumLength szIntType szBytes vars) 0
    match enumLoop buf vars with
    | .ok b => .ok (0, some b)
    | .error e => .error e

/-- Record length the specification prescribes for one enumeration entry:
`4 (offset field) + 16 (GUID) + 2 * len(name-as-UTF16-code-units)`.  Stated
from the spec for comparison with `enumLength`. -/
def specRecordLen (name : PyStr) : Nat := 4 + 16 + 2 * (name.map utf16CodeUnits).sum

/-! ## Concrete test data -/

/-- The GUID `8be4df61-93ca-11d2-aa0d-00e098032b8c` (gEfiGlobalVariableGuid)
as a 128-bit value. -/
def testGuidVal : Nat := 0x8be4df6193ca11d2aa0d00e098032b8c

/-- Canonical string form of `testGuidVal`. -/
def testGuidStr : PyStr := "8be4df61-93ca-11d2-aa0d-00e098032b8c".toList

/-- A well-formed store entry name for variable `Test` under `testGuidVal`. -/
def testEntry : PyStr := "Test-8be4df61-93ca-11d2-aa0d-00e098032b8c".toList

/-- A store entry name that `uuid.UUID` cannot parse. -/
def badEntry : PyStr := "bad".toList

/-- A second well-formed store entry name (`Lang`, same vendor GUID). -/
def testEntry2 : PyStr := "Lang-8be4df61-93ca-11d2-aa0d-00e098032b8c".toList

/-! ## The claims -/

/-- C1: the claim says the buffer returned by `GetUefiAllVarNames` for a
store of decodable entries has length `Σ (4 + 16 + 2·|name|₁₆)`.  It does
not: for the one-entry store `[testEntry]` the length computed on lines
88-91 is `sys.getsizeof(int) + sys.getsizeof(entry.encode('utf-16'))`,
which is at least 84 on any interpreter whose `getsizeof` counts at least
the content bytes, while the prescribed record length is 28; and no buffer
is returned at all, because the fill loop raises `TypeError`. -/
theorem c1_enum_buffer_length_mismatch (szIntType : Nat) (szBytes : Nat → Nat)
    (h : ∀ n, n ≤ szBytes n) :
    enumLength szIntType szBytes [testEntry] ≠ specRecordLen "Test".toList ∧
    ∀ r, GetUefiAllVarNames szIntType szBytes (some [testEntry]) ≠ .ok r := by
  constructor
  · have h84 : utf16ByteLen testEntry = 84 := by decide
    have hs : specRecordLen "Test".toList = 28 := by decide
    have hb := h 84
    simp only [enumLength, List.map_cons, List.map_nil, List.sum_cons, List.sum_nil, h84, hs]
    omega
  · intro r hr
    rw [show GetUefiAllVarNames szIntType szBytes (some [testEntry]) = .error .typeError
      from rfl] at hr
    exact Except.noConfusion hr

/-- Witness for C1 at the CPython 3.x/64-bit sizes: `sys.getsizeof(int) = 416`
and `sys.getsizeof(b) = 33 + len(b)`. -/
theorem c1_enum_buffer_length_mismatch_witness :
    (∀ n, n ≤ 33 + n) ∧
      (enumLength 416 (fun n => 33 + n) [testEntry] ≠ specRecordLen "Test".toList ∧
        ∀ r, GetUefiAllVarNames 416 (fun n => 33 + n) (some [testEntry]) ≠ .ok r) :=
  ⟨fun n => Nat.le_add_left n 33,
    c1_enum_buffer_length_mismatch 416 (fun n => 33 + n) (fun n => Nat.le_add_left n 33)⟩

/-- C2: the claim says each record's `NextEntryOffset` chains to the next
record so that a walk visits every record and ends at the buffer end.  The
code never produces any record: for every interpreter-size assignment, the
enumeration of a store of one or two decodable entries raises `TypeError`
at the first record's `NextEntryOffset` store (line 112). -/
theorem c2_enum_offset_chain_never_produced (szIntType : Nat) (szBytes : Nat → Nat) :
    GetUefiAllVarNames szIntType szBytes (some [testEntry]) = .error .typeError ∧
      GetUefiAllVarNames szIntType szBytes (some [testEntry, testEntry2]) =
        .error .typeError :=
  ⟨rfl, rfl⟩

/-- C3: codec round trip — decoding the encoded entry name of any identity
with a non-empty, null-free name and a 128-bit GUID value recovers exactly
the original name and GUID. -/
theorem c3_codec_round_trip (name : PyStr) (g : Nat) (_hne : name ≠ [])
    (_hnull : Char.ofNat 0 ∉ name) (hg : g < 2 ^ 128) :
    decodeEntry (encodeEntry name g) = some (name, g) :=
  decodeEntry_encodeEntry name g (by
    have h : (16 : Nat) ^ 32 = 2 ^ 128 := by norm_num
    omega)

/-- Witness for C3 at name `Test` and the test GUID. -/
theorem c3_codec_round_trip_witness :
    ("Test".toList ≠ ([] : PyStr)) ∧ (Char.ofNat 0 ∉ "Test".toList) ∧
      testGuidVal < 2 ^ 128 ∧
      decodeEntry (encodeEntry "Test".toList testGuidVal) =
        some ("Test".toList, testGuidVal) :=
  ⟨by decide, by decide, by decide,
    c3_codec_round_trip "Test".toList testGuidVal (by decide) (by decide) (by decide)⟩

/-- C4: hyphenated-name safety — for every variable name containing
hyphens, decoding `name ++ "-" ++ canonical-guid` takes the trailing five
hyphen-delimited segments as the GUID and recovers the name (prefix
rejoined with hyphens) exactly. -/
theorem c4_hyphenated_name_decode (name : PyStr) (g : Nat) (_hhy : '-' ∈ name)
    (hg : g < 2 ^ 128) :
    decodeEntry (name ++ '-' :: uuidCanonical g) = some (name, g) :=
  decodeEntry_encodeEntry name g (by
    have h : (16 : Nat) ^ 32 = 2 ^ 128 := by norm_num
    omega)

/-- Witness for C4 at name `my-var-name` and the test GUID. -/
theorem c4_hyphenated_name_decode_witness :
    ('-' ∈ "my-var-name".toList) ∧ testGuidVal < 2 ^ 128 ∧
      decodeEntry ("my-var-name".toList ++ '-' :: uuidCanonical testGuidVal) =
        some ("my-var-name".toList, testGuidVal) :=
  ⟨by decide, by decide,
    c4_hyphenated_name_decode "my-var-name".toList testGuidVal (by decide) (by decide)⟩

/-- C5: the claim says a store containing an undecodable entry makes
`GetUefiAllVarNames` fail with `MalformedEntryName` surfaced as a
status/result value.  The code instead raises: a Python `Exception` when
the undecodable entry is reached first (line 102), and a `TypeError`
(line 112) before the bad entry is ever examined whenever a decodable
entry precedes it — so no status value is ever returned, though no
partial buffer escapes either. -/
theorem c5_malformed_entry_raises (szIntType : Nat) (szBytes : Nat → Nat) :
    GetUefiAllVarNames szIntType szBytes (some [badEntry]) =
        .error (.exnCouldNotParse badEntry) ∧
      GetUefiAllVarNames szIntType szBytes (some [testEntry, badEntry]) =
        .error .typeError :=
  ⟨rfl, rfl⟩

/-- C6: `SetUefiVar` with a payload and unspecified attributes writes to
the composed path exactly the 4-byte little-endian encoding of the default
attributes `0x7` followed by the raw payload; in particular payload
`[1, 2]` with attributes `0x7` leaves `[7, 0, 0, 0, 1, 2]`. -/
theorem c6_write_attributes_then_payload (store : Store) (name guidStr : PyStr)
    (v : Bytes) :
    (SetUefiVar store name guidStr (some v) none).2 (efiVarPath name guidStr) =
        some ([7, 0, 0, 0] ++ v) ∧
      (SetUefiVar store name guidStr (some [1, 2]) (some 7)).2 (efiVarPath name guidStr) =
        some [7, 0, 0, 0, 1, 2] := by
  constructor <;> simp [SetUefiVar, packUInt32LE]

/-- C7: `GetUefiVar` on a (name, guid) whose composed path is absent
returns the sentinel `0xcb` with null data and null detail, reading no
file and raising nothing. -/
theorem c7_read_missing_not_found (store : Store) (name guidStr : PyStr)
    (h : store (efiVarPath name guidStr) = none) :
    GetUefiVar store name guidStr = (0xcb, none, none) := by
  unfold GetUefiVar
  rw [h]
  rfl

/-- Witness for C7 on the empty store. -/
theorem c7_read_missing_not_found_witness :
    ((fun _ => none : Store) (efiVarPath "Test".toList testGuidStr) = none) ∧
      GetUefiVar (fun _ => none) "Test".toList testGuidStr = (0xcb, none, none) :=
  ⟨rfl, c7_read_missing_not_found (fun _ => none) "Test".toList testGuidStr rfl⟩

/-- C8: deleting (null payload) returns 1 exactly when the file existed and
0 otherwise, removes the file, and a second delete in a row returns 0. -/
theorem c8_delete_idempotence (store : Store) (name guidStr : PyStr) :
    (SetUefiVar store name guidStr none none).1 =
        (if (store (efiVarPath name guidStr)).isSome then 1 else 0) ∧
      (SetUefiVar store name guidStr none none).2 (efiVarPath name guidStr) = none ∧
      (SetUefiVar (SetUefiVar store name guidStr none none).2 name guidStr none none).1 = 0 := by
  unfold SetUefiVar
  cases h : store (efiVarPath name guidStr) <;> simp [h]

/-- C9 counterexample: the claim says an empty name makes the encode step
fail with `InvalidIdentity` instead of producing a path-segment string.
No such check exists: with an empty name the path string is produced and
both the write (status 1) and the read (plain not-found) proceed. -/
theorem c9_counterexample_empty_name_accepted :
    efiVarPath [] testGuidStr =
        "/sys/firmware/efi/efivars/-8be4df61-93ca-11d2-aa0d-00e098032b8c".toList ∧
      (SetUefiVar (fun _ => none) [] testGuidStr (some [1]) none).1 = 1 ∧
      GetUefiVar (fun _ => none) [] testGuidStr = (0xcb, none, none) :=
  ⟨by decide, rfl, rfl⟩

/-- C9 amended: the path composition used by `GetUefiVar` and `SetUefiVar`
performs no name validation — an empty name simply composes the path
`root ++ "-" ++ guid` and the operations proceed normally (a write returns
success); no `InvalidIdentity` failure exists in the code. -/
theorem c9_no_empty_name_validation (guidStr : PyStr) (store : Store) (v : Bytes) :
    efiVarPath [] guidStr = efivarsRoot ++ '-' :: guidStr ∧
      (SetUefiVar store [] guidStr (some v) none).1 = 1 :=
  ⟨by simp [efiVarPath], rfl⟩

/-- C10: on a store directory that exists but is empty, `GetUefiAllVarNames`
returns status 0 with a zero-length buffer — not the not-found sentinel
and not an exception — for every interpreter-size assignment. -/
theorem c10_empty_store_success (szIntType : Nat) (szBytes : Nat → Nat) :
    GetUefiAllVarNames szIntType szBytes (some []) = .ok (0, some []) :=
  rfl

end UefiVariable
